import Mathlib

/-!
Verification of the zk notebook indexing and query engine.

This file gives a shallow embedding of the parts of the `zk` repository
relevant to the frozen claims: the optional string type `opt.String`, the
notebook locator (`locateRoot`, `Open`, `Create`), the SQLite schema
migration (`DB.Migrate`) together with the declared foreign-key and
trigger semantics of the store, and the transactional indexer glue of
`Container` (`Database`, `index`).
-/

namespace ZkSpec

/-! ## opt.String (src/unnamed/part_001)

Go's `opt.String` wraps a `*string`; a nil pointer is the null optional.
We embed it as `Option String`: `none` is the nil pointer. -/

/-- Embedding of Go `opt.String` (a `Value *string` wrapper). -/
abbrev OptString := Option String

/-- `opt.NullString`: the empty optional String (nil pointer). -/
def NullString : OptString := none

/-- `opt.NewString`: a new optional String with the given value. -/
def NewString (value : String) : OptString := some value

/-- `opt.NewNotEmptyString`: the given value, or `NullString` when it is
the empty string. -/
def NewNotEmptyString (value : String) : OptString :=
  if value = "" then NullString else NewString value

/-- `String.IsNull`: whether the optional String has no value. -/
def OptString.IsNull : OptString → Bool
  | none => true
  | some _ => false

/-- `String.IsEmpty`: whether the optional String holds the empty string
(`!s.IsNull() && *s.Value == ""`). -/
def OptString.IsEmpty : OptString → Bool
  | none => false
  | some v => v == ""

/-- `String.NonEmpty`: a null String if the String is empty, otherwise the
receiver. -/
def OptString.NonEmpty (s : OptString) : OptString :=
  if s.IsEmpty then NullString else s

/-- `String.Unwrap`: the value, or the empty string when null. -/
def OptString.Unwrap : OptString → String
  | none => ""
  | some v => v

/-! ## Notebook location (`zk.Open`, `zk.Create`, `locateRoot`)

An absolute filesystem path is embedded as its list of directory
components with the DEEPEST component first, so that Go's
`filepath.Dir` is `List.tail` and the filesystem root `/` is `[]`.
An ancestor directory of `p` (including `p` itself) is then exactly a
suffix (`<:+`) of `p`.  The filesystem is abstracted by the predicate
`hasZkDir : AbsPath → Bool` telling which directories contain a `.zk`
subdirectory (`paths.DirExists(filepath.Join(dir, ".zk"))`, assumed to
never fail with an I/O error). -/

/-- An absolute path: directory components, deepest first; `[]` is `/`. -/
abbrev AbsPath := List String

/-- Errors produced by the notebook-location functions. -/
inductive ZkError where
  /-- `ErrNotebookNotFound`: "no notebook found in `path` or a parent
  directory". Carries the path given to `locateRoot`. -/
  | notebookNotFound (path : AbsPath)
  /-- `Create`'s "a notebook already exists in `root`" error. -/
  | alreadyExists (root : AbsPath)
  /-- `errors.Wrapper(msg)` wrapping another error. -/
  | wrapped (msg : String) (e : ZkError)
deriving DecidableEq, Repr

/-- The recursive `locate` closure inside `locateRoot`: stop with
`ErrNotebookNotFound` at the filesystem root, return the current
directory when it contains `.zk`, otherwise recurse on the parent
(`filepath.Dir`, i.e. `List.tail` in our encoding). Note the root `/`
itself is never tested for a `.zk` directory. -/
def locate (hasZkDir : AbsPath → Bool) (path : AbsPath) : AbsPath → Except ZkError AbsPath
  | [] => .error (.notebookNotFound path)
  | c :: parent =>
    if hasZkDir (c :: parent) then .ok (c :: parent)
    else locate hasZkDir path parent

/-- `locateRoot`: finds the root of the notebook containing the given
absolute path. -/
def locateRoot (hasZkDir : AbsPath → Bool) (path : AbsPath) : Except ZkError AbsPath :=
  locate hasZkDir path path

/-- `zk.Open` restricted to notebook location: locates the root and wraps
any failure in the "open failed" wrapper. Config loading
(`OpenConfig`), which is outside the claims, is abstracted as always
succeeding; the returned value is the notebook root path (`Zk.Path`). -/
def zkOpen (hasZkDir : AbsPath → Bool) (path : AbsPath) : Except ZkError AbsPath :=
  match locateRoot hasZkDir path with
  | .error e => .error (.wrapped "open failed" e)
  | .ok root => .ok root

/-- The content of a file written by `Create` (the literal default
config and template strings are abstracted as tags). -/
inductive FileContent where
  /-- The default `config.toml` contents (`defaultConfig`). -/
  | defaultConfig
  /-- The default note template contents (`defaultTemplate`). -/
  | defaultTemplate
deriving DecidableEq, Repr

/-- A file written by `Create`: its absolute path and content. -/
structure CreatedFile where
  path : AbsPath
  content : FileContent
deriving DecidableEq, Repr

/-- `zk.Create`: initializes a new notebook at the given absolute path.
If `locateRoot` finds an existing notebook at the path or one of its
ancestors, fail with the wrapped "already exists" error and write
nothing; otherwise write the default `config.toml` and default note
template under `path/.zk` (returned as the list of written files). -/
def zkCreate (hasZkDir : AbsPath → Bool) (path : AbsPath) : Except ZkError (List CreatedFile) :=
  match locateRoot hasZkDir path with
  | .ok existingPath => .error (.wrapped "init failed" (.alreadyExists existingPath))
  | .error _ =>
    .ok [⟨"config.toml" :: ".zk" :: path, .defaultConfig⟩,
         ⟨"default.md" :: "templates" :: ".zk" :: path, .defaultTemplate⟩]

/-! ## The index store (`notes`, `links`, `notes_fts`)

The relational state declared by `DB.Migrate`'s schema, together with
the data-manipulation semantics that SQLite gives it once
`PRAGMA foreign_keys = ON` is set by `open`:

* `notes` has `UNIQUE(path)` and `id INTEGER PRIMARY KEY AUTOINCREMENT`;
* `links.source_id REFERENCES notes(id) ON DELETE CASCADE`;
* `links.target_id REFERENCES notes(id) ON DELETE SET NULL` (nullable);
* the `notes_fts` mirror is maintained by the triggers
  `trigger_notes_ai` (insert row after note insert),
  `trigger_notes_ad` (delete row after note delete) and
  `trigger_notes_au` (delete old row then insert new row after update).

Tables are embedded as lists of rows; `AUTOINCREMENT` as the
`nextNoteId` counter. -/

/-- A row of the `notes` table (schema version 3). -/
structure NoteRow where
  id : Nat
  path : String
  sortablePath : String
  title : String
  lead : String
  body : String
  rawContent : String
  wordCount : Nat
  checksum : String
  metadata : String
deriving DecidableEq, Repr

/-- A row of the `links` table (schema version 3). `targetId` is
nullable: `none` is SQL `NULL`. -/
structure LinkRow where
  id : Nat
  sourceId : Nat
  targetId : Option Nat
  title : String
  href : String
  external : Bool
  rels : String
  snippet : String
  snippetStart : Nat
  snippetEnd : Nat
deriving DecidableEq, Repr

/-- A row of the `notes_fts` full-text mirror: `rowid` mirrors
`notes.id` and carries the `(path, title, body)` projection. -/
structure FtsRow where
  rowid : Nat
  path : String
  title : String
  body : String
deriving DecidableEq, Repr

/-- The projection inserted by the FTS triggers for a note row. -/
def ftsOf (n : NoteRow) : FtsRow :=
  { rowid := n.id, path := n.path, title := n.title, body := n.body }

/-- The whole index store state. -/
structure StoreState where
  notes : List NoteRow
  links : List LinkRow
  notesFts : List FtsRow
  /-- Next `AUTOINCREMENT` value for `notes.id`. -/
  nextNoteId : Nat
deriving DecidableEq, Repr

/-- The empty store, right after `Migrate` on a fresh database. -/
def StoreState.empty : StoreState :=
  { notes := [], links := [], notesFts := [], nextNoteId := 1 }

/-- The caller-supplied fields of a new `notes` row (everything except
the auto-assigned `id`). -/
structure NewNote where
  path : String
  sortablePath : String
  title : String
  lead : String
  body : String
  rawContent : String
  wordCount : Nat
  checksum : String
  metadata : String
deriving DecidableEq, Repr

/-- The content fields replaced by an update of a `notes` row
(`UPDATE notes SET ... WHERE path = ?`; the `path` key itself is not
changed). -/
structure NoteUpdate where
  title : String
  lead : String
  body : String
  rawContent : String
  wordCount : Nat
  checksum : String
  metadata : String
deriving DecidableEq, Repr

/-- Apply a `NoteUpdate` to an existing row, keeping `id`, `path` and
`sortablePath`. -/
def applyUpdate (d : NoteUpdate) (r : NoteRow) : NoteRow :=
  { r with title := d.title, lead := d.lead, body := d.body,
           rawContent := d.rawContent, wordCount := d.wordCount,
           checksum := d.checksum, metadata := d.metadata }

/-- `INSERT INTO notes ...` with `PRAGMA foreign_keys = ON`.
The `UNIQUE(path)` constraint rejects a second row with an
already-present path (`none`); otherwise the row is appended with the
next `AUTOINCREMENT` id and `trigger_notes_ai` appends the matching
`notes_fts` row. -/
def insertNote (s : StoreState) (d : NewNote) : Option StoreState :=
  if s.notes.any (fun r => r.path == d.path) then none
  else
    let row : NoteRow :=
      { id := s.nextNoteId, path := d.path, sortablePath := d.sortablePath,
        title := d.title, lead := d.lead, body := d.body,
        rawContent := d.rawContent, wordCount := d.wordCount,
        checksum := d.checksum, metadata := d.metadata }
    some { s with
      notes := s.notes ++ [row],
      notesFts := s.notesFts ++ [ftsOf row],
      nextNoteId := s.nextNoteId + 1 }

/-- `UPDATE notes SET <content fields> WHERE path = p`.
`trigger_notes_au` deletes the stale `notes_fts` row of every updated
note and inserts the refreshed projection. -/
def updateNote (s : StoreState) (p : String) (d : NoteUpdate) : StoreState :=
  let updatedIds := (s.notes.filter (fun r => r.path == p)).map (·.id)
  { s with
    notes := s.notes.map (fun r => if r.path == p then applyUpdate d r else r),
    notesFts :=
      s.notesFts.filter (fun f => decide (f.rowid ∉ updatedIds))
        ++ (s.notes.filter (fun r => r.path == p)).map (fun r => ftsOf (applyUpdate d r)) }

/-- `DELETE FROM notes WHERE cond` under `PRAGMA foreign_keys = ON`:
the deleted rows disappear, `links.source_id ON DELETE CASCADE` deletes
every link sourced at a deleted note, `links.target_id ON DELETE SET
NULL` nulls every reference to a deleted note while keeping the link
row, and `trigger_notes_ad` removes the deleted notes' `notes_fts`
rows. -/
def deleteWhere (s : StoreState) (cond : NoteRow → Bool) : StoreState :=
  let deletedIds := (s.notes.filter cond).map (·.id)
  { s with
    notes := s.notes.filter (fun r => !cond r),
    links :=
      (s.links.filter (fun l => decide (l.sourceId ∉ deletedIds))).map
        (fun l =>
          match l.targetId with
          | some t => if t ∈ deletedIds then { l with targetId := none } else l
          | none => l),
    notesFts := s.notesFts.filter (fun f => decide (f.rowid ∉ deletedIds)) }

/-- `DELETE FROM notes WHERE id = nid` (deleting one indexed note). -/
def deleteNoteById (s : StoreState) (nid : Nat) : StoreState :=
  deleteWhere s (fun r => r.id == nid)

/-- `DELETE FROM notes WHERE path = p` (the store's delete-by-path,
a no-op when the path is absent). -/
def deleteNoteByPath (s : StoreState) (p : String) : StoreState :=
  deleteWhere s (fun r => r.path == p)

/-- `INSERT INTO links ...`: links of a source note are (re)created
wholesale after the note itself is indexed; `source_id` must reference
an existing note (enforced by the foreign key), which the indexer
guarantees by construction. -/
def insertLink (s : StoreState) (l : LinkRow) : StoreState :=
  { s with links := s.links ++ [l] }

/-- The store states reachable from a fresh database through the
store's mutation surface (note insert / update / delete and link
insertion). The `notes_fts` mirror has no mutation of its own: it is
only ever touched by the triggers inside these operations. -/
inductive Reachable : StoreState → Prop where
  | empty : Reachable StoreState.empty
  | insert {s d s'} : Reachable s → insertNote s d = some s' → Reachable s'
  | update {s p d} : Reachable s → Reachable (updateNote s p d)
  | deleteById {s nid} : Reachable s → Reachable (deleteNoteById s nid)
  | deleteByPath {s p} : Reachable s → Reachable (deleteNoteByPath s p)
  | link {s l} : Reachable s → Reachable (insertLink s l)

/-! ## Transactions

`DB.WithTransaction` is called by `DB.Migrate` and `Container.index`,
but its own body is not among the provided sources; it is modelled from
the spec. -/

/-- Modelled from the spec: `DB.WithTransaction` (its body is not under
src/, only its callers are). It runs the body against the current
state; on success the body's final state is committed, on error the
whole transaction rolls back and the state is left exactly as before
("an index run either completes and commits, or aborts and rolls back
in full"; "migrations run inside a transaction"). -/
def withTransaction {σ ε α : Type} (body : σ → Except ε (α × σ)) (s : σ) :
    Except ε α × σ :=
  match body s with
  | .ok (a, s') => (.ok a, s')
  | .error e => (.error e, s)

/-! ## Schema migration (`DB.Migrate`)

The DDL statements executed by `Migrate` are embedded as an inductive
statement type (one constructor per kind of statement occurring in the
source), the database schema as the sets of objects they create, and
statement failure as an oracle `fail? : Stmt → Bool` (SQLite reports an
error for the first failing statement and `ExecStmts` stops there). -/

/-- A DDL statement of the migration scripts. -/
inductive Stmt where
  | createTable (name : String)
  | createIndex (name : String)
  | createVirtualTable (name : String)
  | createTrigger (name : String)
  | createView (name : String)
  | addColumn (table : String) (column : String)
  | setUserVersion (v : Nat)
deriving DecidableEq, Repr

/-- The schema side of the database: `PRAGMA user_version` plus the
created objects. -/
structure DBSchema where
  userVersion : Nat
  tables : List String
  indexes : List String
  virtualTables : List String
  triggers : List String
  views : List String
  /-- Columns added by `ALTER TABLE ... ADD COLUMN`, as (table, column). -/
  addedColumns : List (String × String)
deriving DecidableEq, Repr

/-- Effect of one successful DDL statement on the schema (the `IF NOT
EXISTS` creates add the object when absent). -/
def execStmt (st : DBSchema) : Stmt → DBSchema
  | .createTable n =>
    { st with tables := if n ∈ st.tables then st.tables else st.tables ++ [n] }
  | .createIndex n =>
    { st with indexes := if n ∈ st.indexes then st.indexes else st.indexes ++ [n] }
  | .createVirtualTable n =>
    { st with virtualTables :=
        if n ∈ st.virtualTables then st.virtualTables else st.virtualTables ++ [n] }
  | .createTrigger n =>
    { st with triggers := if n ∈ st.triggers then st.triggers else st.triggers ++ [n] }
  | .createView n =>
    { st with views := if n ∈ st.views then st.views else st.views ++ [n] }
  | .addColumn t c =>
    { st with addedColumns :=
        if (t, c) ∈ st.addedColumns then st.addedColumns else st.addedColumns ++ [(t, c)] }
  | .setUserVersion v => { st with userVersion := v }

/-- `Transaction.ExecStmts`: executes the statements in order, stopping
at the first failure (the error names the failing statement). -/
def execStmts (failOn : Stmt → Bool) : DBSchema → List Stmt → Except Stmt DBSchema
  | st, [] => .ok st
  | st, stmt :: rest =>
    if failOn stmt then .error stmt
    else execStmts failOn (execStmt st stmt) rest

/-- The `version <= 0` migration script: notes, links, the `notes_fts`
mirror and its triggers; ends with `PRAGMA user_version = 1`. -/
def migrationStep1 : List Stmt :=
  [.createTable "notes",
   .createIndex "index_notes_checksum",
   .createIndex "index_notes_path",
   .createTable "links",
   .createIndex "index_links_source_id_target_id",
   .createVirtualTable "notes_fts",
   .createTrigger "trigger_notes_ai",
   .createTrigger "trigger_notes_ad",
   .createTrigger "trigger_notes_au",
   .setUserVersion 1]

/-- The `version <= 1` migration script: collections, the note to
collection join table and the metadata view; ends with
`PRAGMA user_version = 2`. -/
def migrationStep2 : List Stmt :=
  [.createTable "collections",
   .createIndex "index_collections",
   .createTable "notes_collections",
   .createIndex "index_notes_collections",
   .createView "notes_with_metadata",
   .setUserVersion 2]

/-- The `version <= 2` migration script: adds the `notes.metadata`
column and the link snippet offsets; ends with
`PRAGMA user_version = 3`. -/
def migrationStep3 : List Stmt :=
  [.addColumn "notes" "metadata",
   .addColumn "links" "snippet_start",
   .addColumn "links" "snippet_end",
   .setUserVersion 3]

/-- The statements a `Migrate` run executes from a stored version `v`:
the migration scripts whose guard `v <= k` holds, in increasing
order. -/
def migrationStmts (v : Nat) : List Stmt :=
  (if v ≤ 0 then migrationStep1 else [])
    ++ (if v ≤ 1 then migrationStep2 else [])
    ++ (if v ≤ 2 then migrationStep3 else [])

/-- The body of `DB.Migrate`'s transaction: read `PRAGMA user_version`,
run each pending migration script in order, and report whether the
reindex-requiring `version <= 2` script ran (`needsReindexing`, false
unless that branch sets it). -/
def migrateBody (failOn : Stmt → Bool) (st : DBSchema) :
    Except Stmt (Bool × DBSchema) :=
  let version := st.userVersion
  match (if version ≤ 0 then execStmts failOn st migrationStep1 else .ok st) with
  | .error e => .error e
  | .ok st1 =>
    match (if version ≤ 1 then execStmts failOn st1 migrationStep2 else .ok st1) with
    | .error e => .error e
    | .ok st2 =>
      if version ≤ 2 then
        match execStmts failOn st2 migrationStep3 with
        | .error e => .error e
        | .ok st3 => .ok (true, st3)
      else
        .ok (false, st2)

/-- `DB.Migrate`: the migration body inside one `WithTransaction`; the
result is the `needsReindexing` flag. -/
def migrate (failOn : Stmt → Bool) (st : DBSchema) : Except Stmt Bool × DBSchema :=
  withTransaction (migrateBody failOn) st

/-- The no-failure oracle: every statement executes successfully. -/
def noFail : Stmt → Bool := fun _ => false

/-! ## Container glue (`Container.index`, `Container.Database`) -/

/-- `Container.index`: runs a note-indexing body inside one
`db.WithTransaction`. Modelled from the spec for the body
(`note.Index` is not under src/): the body is the sequence of store
reads and mutations of one index run, abstracted as a state-passing
function. -/
def containerIndex {α : Type} (noteIndexBody : StoreState → Except String (α × StoreState))
    (store : StoreState) : Except String α × StoreState :=
  withTransaction noteIndexBody store

/-- One store mutation requested by an index run. -/
inductive StoreOp where
  | insert (d : NewNote)
  | update (p : String) (d : NoteUpdate)
  | remove (p : String)
  | link (l : LinkRow)
deriving DecidableEq, Repr

/-- Execute one store mutation; the only store-level failure the model
exposes is a `UNIQUE(path)` violation on insert. -/
def applyOp (s : StoreState) : StoreOp → Except String StoreState
  | .insert d =>
    match insertNote s d with
    | some s' => .ok s'
    | none => .error "UNIQUE constraint failed: notes.path"
  | .update p d => .ok (updateNote s p d)
  | .remove p => .ok (deleteNoteByPath s p)
  | .link l => .ok (insertLink s l)

/-- Execute a sequence of store mutations, stopping at the first
store-level error. -/
def applyOps : StoreState → List StoreOp → Except String StoreState
  | s, [] => .ok s
  | s, op :: rest =>
    match applyOp s op with
    | .ok s' => applyOps s' rest
    | .error e => .error e

/-- One index run: the store mutations produced by `note.Index`,
executed inside the enclosing transaction of `Container.index`. -/
def indexRun (ops : List StoreOp) (store : StoreState) : Except String Unit × StoreState :=
  containerIndex (fun st => (applyOps st ops).map (fun s' => ((), s'))) store

/-- `Container.Database`: migrates the schema, then runs the indexer
(abstracted as `noteIndexBody`, parameterized by its `force` argument)
inside a transaction, passing `forceIndexing || needsReindexing` as the
force flag. A migration failure is surfaced as the wrapped "failed to
migrate the database" error and the indexer never runs. -/
def containerDatabase {α : Type}
    (noteIndexBody : Bool → StoreState → Except String (α × StoreState))
    (forceIndexing : Bool) (failOn : Stmt → Bool) (st : DBSchema) (store : StoreState) :
    Except String α × DBSchema × StoreState :=
  match migrate failOn st with
  | (.error _, st') => (.error "failed to migrate the database", st', store)
  | (.ok needsReindexing, st') =>
    let r := containerIndex (noteIndexBody (forceIndexing || needsReindexing)) store
    (r.1, st', r.2)

/-- A two-note store used to instantiate the delete-cascade theorem:
note 1 (`a.md`) and note 2 (`b.md`), a link from note 2 to note 1, and
a link from note 1 to note 2. -/
def sampleNote1 : NoteRow :=
  { id := 1, path := "a.md", sortablePath := "a.md", title := "A", lead := "",
    body := "", rawContent := "", wordCount := 0, checksum := "ca", metadata := "\x7b\x7d" }

/-- Second sample note. -/
def sampleNote2 : NoteRow :=
  { id := 2, path := "b.md", sortablePath := "b.md", title := "B", lead := "",
    body := "", rawContent := "", wordCount := 0, checksum := "cb", metadata := "\x7b\x7d" }

/-- The caller-supplied fields inserting `sampleNote1`. -/
def sampleNew1 : NewNote :=
  { path := "a.md", sortablePath := "a.md", title := "A", lead := "",
    body := "", rawContent := "", wordCount := 0, checksum := "ca", metadata := "\x7b\x7d" }

/-- The caller-supplied fields inserting `sampleNote2`. -/
def sampleNew2 : NewNote :=
  { path := "b.md", sortablePath := "b.md", title := "B", lead := "",
    body := "", rawContent := "", wordCount := 0, checksum := "cb", metadata := "\x7b\x7d" }

/-- A link from note 2 to note 1. -/
def sampleLink1 : LinkRow :=
  { id := 1, sourceId := 2, targetId := some 1, title := "to a", href := "a",
    external := false, rels := "", snippet := "[a]", snippetStart := 0, snippetEnd := 3 }

/-- A link from note 1 to note 2. -/
def sampleLink2 : LinkRow :=
  { id := 2, sourceId := 1, targetId := some 2, title := "to b", href := "b",
    external := false, rels := "", snippet := "[b]", snippetStart := 0, snippetEnd := 3 }

/-- The store after inserting the first sample note. -/
def sampleStage1 : StoreState :=
  { notes := [sampleNote1], links := [], notesFts := [ftsOf sampleNote1], nextNoteId := 2 }

/-- The store after inserting both sample notes. -/
def sampleStage2 : StoreState :=
  { notes := [sampleNote1, sampleNote2], links := [],
    notesFts := [ftsOf sampleNote1, ftsOf sampleNote2], nextNoteId := 3 }

/-- Sample store holding the two notes and two links between them. -/
def sampleStore : StoreState :=
  { notes := [sampleNote1, sampleNote2],
    links := [sampleLink1, sampleLink2],
    notesFts := [ftsOf sampleNote1, ftsOf sampleNote2],
    nextNoteId := 3 }

/-! ## Concrete fixtures used by witnesses and counterexamples -/

/-- Duplicate-path store operations: the second insert violates
`UNIQUE(path)`. -/
def dupOps : List StoreOp :=
  [.insert { path := "a.md", sortablePath := "a.md", title := "", lead := "", body := "",
             rawContent := "", wordCount := 0, checksum := "c", metadata := "\x7b\x7d" },
   .insert { path := "a.md", sortablePath := "a.md", title := "", lead := "", body := "",
             rawContent := "", wordCount := 0, checksum := "c2", metadata := "\x7b\x7d" }]

/-- A freshly created database file: stored schema version 0, no
objects. -/
def schemaFresh : DBSchema :=
  { userVersion := 0, tables := [], indexes := [], virtualTables := [],
    triggers := [], views := [], addedColumns := [] }

/-- A database already past the current schema version: stored version
4. -/
def schemaVersionFour : DBSchema :=
  { userVersion := 4, tables := [], indexes := [], virtualTables := [],
    triggers := [], views := [], addedColumns := [] }

/-- A failure oracle making the creation of the `links` table fail. -/
def failOnLinksTable : Stmt → Bool := fun x => x == .createTable "links"

/-- A filesystem whose only `.zk` directory sits directly under the
filesystem root `/`. -/
def fsRootOnly : AbsPath → Bool := fun cs => cs.isEmpty

/-- A filesystem with a `.zk` directory at `/a` only. -/
def fsNotebookAtA : AbsPath → Bool := fun cs => cs == ["a"]

/-- Pointwise schema growth: every schema object present before is
still present after (the semantic statement that a migration step is
additive). -/
structure SchemaLe (a b : DBSchema) : Prop where
  tables : a.tables ⊆ b.tables
  indexes : a.indexes ⊆ b.indexes
  virtualTables : a.virtualTables ⊆ b.virtualTables
  triggers : a.triggers ⊆ b.triggers
  views : a.views ⊆ b.views
  addedColumns : a.addedColumns ⊆ b.addedColumns

/-! ## Theorems -/

/-- **C10.** For every optional String `s`, `s.NonEmpty()` is `NullString`
exactly when `s` is null or holds the empty string; `NonEmpty` is
idempotent; and `NewNotEmptyString(v).IsNull()` holds iff `v` is the
empty string. -/
theorem optString_nonEmpty_spec :
    (∀ s : OptString, (s.NonEmpty = NullString ↔ s = NullString ∨ s = NewString ""))
    ∧ (∀ s : OptString, s.NonEmpty.NonEmpty = s.NonEmpty)
    ∧ (∀ v : String, ((NewNotEmptyString v).IsNull = true ↔ v = "")) := by
  refine ⟨?_, ?_, ?_⟩
  · rintro (_ | v)
    · simp [OptString.NonEmpty, OptString.IsEmpty, NullString]
    · by_cases hv : v = "" <;>
        simp [OptString.NonEmpty, OptString.IsEmpty, NullString, NewString, hv]
  · rintro (_ | v)
    · simp [OptString.NonEmpty, OptString.IsEmpty, NullString]
    · by_cases hv : v = "" <;>
        simp [OptString.NonEmpty, OptString.IsEmpty, NullString, hv]
  · intro v
    by_cases hv : v = "" <;>
      simp [NewNotEmptyString, OptString.IsNull, NullString, NewString, hv]

/-- **C1.** Deleting an indexed note `N` deletes `N`'s note row and every
link row whose `source_id` is `N`; every link row elsewhere whose
`target_id` was `N` survives with its `href`, `title` and `snippet`
intact and its `target_id` set to null; all other note rows survive. -/
theorem deleteNote_cascade (s : StoreState) (N : NoteRow) (hN : N ∈ s.notes) :
    (∀ r ∈ (deleteNoteById s N.id).notes, r.id ≠ N.id)
    ∧ (∀ r ∈ s.notes, r.id ≠ N.id → r ∈ (deleteNoteById s N.id).notes)
    ∧ (∀ l ∈ (deleteNoteById s N.id).links, l.sourceId ≠ N.id)
    ∧ (∀ l ∈ (deleteNoteById s N.id).links, l.targetId ≠ some N.id)
    ∧ (∀ l ∈ s.links, l.sourceId ≠ N.id →
        ∃ l' ∈ (deleteNoteById s N.id).links,
          l'.id = l.id ∧ l'.href = l.href ∧ l'.title = l.title ∧
          l'.snippet = l.snippet ∧ l'.sourceId = l.sourceId ∧
          l'.targetId = (if l.targetId = some N.id then none else l.targetId)) := by
  classical
  simp only [deleteNoteById, deleteWhere]
  set D := (s.notes.filter (fun r => r.id == N.id)).map (·.id) with hDdef
  have hD : ∀ t, t ∈ D ↔ t = N.id := by
    intro t
    rw [hDdef]
    constructor
    · intro ht
      obtain ⟨r, hr, rfl⟩ := List.mem_map.mp ht
      exact beq_iff_eq.mp (List.mem_filter.mp hr).2
    · rintro rfl
      exact List.mem_map.mpr ⟨N, List.mem_filter.mpr ⟨hN, beq_iff_eq.mpr rfl⟩, rfl⟩
  refine ⟨?_, ?_, ?_, ?_, ?_⟩
  · intro r hr
    have h2 := (List.mem_filter.mp hr).2
    simpa using h2
  · intro r hr hid
    exact List.mem_filter.mpr ⟨hr, by simpa using hid⟩
  · intro l' hl'
    obtain ⟨l₀, hmem, rfl⟩ := List.mem_map.mp hl'
    obtain ⟨hl₀, hsrcB⟩ := List.mem_filter.mp hmem
    have hne : l₀.sourceId ≠ N.id :=
      fun h => (of_decide_eq_true hsrcB) ((hD _).mpr h)
    cases htgt : l₀.targetId with
    | none => simpa [htgt] using hne
    | some t => by_cases ht : t ∈ D <;> simp [htgt, ht, hne]
  · intro l' hl'
    obtain ⟨l₀, hmem, rfl⟩ := List.mem_map.mp hl'
    cases htgt : l₀.targetId with
    | none => simp [htgt]
    | some t =>
      by_cases ht : t ∈ D
      · simp [htgt, ht]
      · have hne : t ≠ N.id := fun h => ht ((hD _).mpr h)
        simp [htgt, ht, hne]
  · intro l hl hsrc
    refine ⟨_, List.mem_map.mpr
      ⟨l, List.mem_filter.mpr ⟨hl, decide_eq_true (fun h => hsrc ((hD _).mp h))⟩, rfl⟩, ?_⟩
    cases htgt : l.targetId with
    | none => simp [htgt]
    | some t =>
      by_cases ht : t = N.id
      · subst ht
        have hmemD : N.id ∈ D := (hD N.id).mpr rfl
        simp [htgt, hmemD]
      · have ht' : t ∉ D := fun h => ht ((hD _).mp h)
        simp [htgt, ht', ht]


/-- Witness for the delete-cascade theorem on the concrete two-note
store: deleting note 1 leaves no link targeting it. -/
theorem deleteNote_cascade_witness :
    sampleNote1 ∈ sampleStore.notes
    ∧ (∀ l ∈ (deleteNoteById sampleStore sampleNote1.id).links,
        l.targetId ≠ some sampleNote1.id) :=
  ⟨by decide, (deleteNote_cascade sampleStore sampleNote1 (by decide)).2.2.2.1⟩

/-- **C3.** Every index run executes its store mutations inside one
enclosing transaction: a store-level error rolls the whole transaction
back (the committed state is exactly the pre-run state, no partial
indexing), while a successful run commits all mutations together. -/
theorem indexRun_transactional (ops : List StoreOp) (store : StoreState) :
    (∀ e, (indexRun ops store).1 = .error e → (indexRun ops store).2 = store)
    ∧ (∀ s', applyOps store ops = .ok s' → indexRun ops store = (.ok (), s')) := by
  simp only [indexRun, containerIndex, withTransaction]
  cases h : applyOps store ops with
  | ok s' =>
    refine ⟨?_, ?_⟩
    · intro e he
      simp [Except.map] at he
    · intro s'' h2
      cases h2
      simp [Except.map]
  | error e =>
    refine ⟨fun e' _ => by simp [Except.map], ?_⟩
    · intro s'' h2
      cases h2

/-- Witness for the index-run transactionality theorem: a run whose
second insert violates `UNIQUE(path)` fails and leaves the store
empty. -/
theorem indexRun_transactional_witness :
    (indexRun dupOps StoreState.empty).1 = .error "UNIQUE constraint failed: notes.path"
    ∧ (indexRun dupOps StoreState.empty).2 = StoreState.empty :=
  ⟨by rfl, (indexRun_transactional dupOps StoreState.empty).1 _ (by rfl)⟩

/-- With no failing statement, `ExecStmts` succeeds and folds the
statements over the schema in order. -/
theorem execStmts_noFail (st : DBSchema) (l : List Stmt) :
    execStmts noFail st l = .ok (l.foldl execStmt st) := by
  induction l generalizing st with
  | nil => simp [execStmts]
  | cons x rest ih => simp [execStmts, noFail, ih]

/-- `ExecStmts` of an empty script returns the schema unchanged. -/
theorem execStmts_nil (failOn : Stmt → Bool) (st : DBSchema) :
    execStmts failOn st [] = .ok st := rfl

/-- `ExecStmts` on appended scripts runs the first script and, on
success, the second from the resulting schema. -/
theorem execStmts_append (failOn : Stmt → Bool) (l₁ l₂ : List Stmt) (st : DBSchema) :
    execStmts failOn st (l₁ ++ l₂) =
      match execStmts failOn st l₁ with
      | .ok st' => execStmts failOn st' l₂
      | .error e => .error e := by
  induction l₁ generalizing st with
  | nil => simp [execStmts]
  | cons x rest ih =>
    by_cases hx : failOn x <;> simp [execStmts, hx, ih]

/-- If some statement of a script is failing, `ExecStmts` reports an
error. -/
theorem execStmts_fails (failOn : Stmt → Bool) (l : List Stmt) (st : DBSchema)
    (h : ∃ x ∈ l, failOn x = true) : ∃ e, execStmts failOn st l = .error e := by
  induction l generalizing st with
  | nil => simp at h
  | cons y rest ih =>
    by_cases hy : failOn y
    · exact ⟨y, by simp [execStmts, hy]⟩
    · obtain ⟨x, hx, hfx⟩ := h
      rcases List.mem_cons.mp hx with rfl | hx'
      · exact absurd hfx hy
      · obtain ⟨e, he⟩ := ih (execStmt st y) ⟨x, hx', hfx⟩
        exact ⟨e, by simp [execStmts, hy, he]⟩

/-- The migration body equals running the pending migration scripts
(in increasing version order) in one pass, reporting reindexing
exactly when the `version <= 2` script was pending. -/
theorem migrateBody_eq (failOn : Stmt → Bool) (st : DBSchema) :
    migrateBody failOn st =
      (execStmts failOn st (migrationStmts st.userVersion)).map
        (fun st' => (decide (st.userVersion ≤ 2), st')) := by
  unfold migrateBody migrationStmts
  by_cases h0 : st.userVersion ≤ 0
  · have h1 : st.userVersion ≤ 1 := by omega
    have h2 : st.userVersion ≤ 2 := by omega
    simp only [h0, h1, h2, if_true, execStmts_append]
    cases execStmts failOn st migrationStep1 with
    | error e => rfl
    | ok st1 =>
      dsimp only
      cases execStmts failOn st1 migrationStep2 with
      | error e => rfl
      | ok st2 =>
        dsimp only
        cases execStmts failOn st2 migrationStep3 with
        | error e => rfl
        | ok st3 => simp [h2, Except.map]
  · by_cases h1 : st.userVersion ≤ 1
    · have h2 : st.userVersion ≤ 2 := by omega
      simp only [h0, h1, h2, if_true, if_false, execStmts_append, execStmts_nil]
      cases execStmts failOn st migrationStep2 with
      | error e => simp [h0, Except.map]
      | ok st2 =>
        dsimp only
        cases execStmts failOn st2 migrationStep3 with
        | error e => simp [h0, Except.map]
        | ok st3 => simp [h0, h2, Except.map]
    · by_cases h2 : st.userVersion ≤ 2
      · simp only [h0, h1, h2, if_true, if_false, execStmts_append, execStmts_nil]
        cases execStmts failOn st migrationStep3 with
        | error e => simp [h0, h1, Except.map]
        | ok st3 => simp [h0, h1, h2, Except.map]
      · simp [h0, h1, h2, execStmts_nil, Except.map]

/-- A fail-free `Migrate` commits the fold of the pending migration
scripts and returns the reindex flag. -/
theorem migrate_noFail_eq (st : DBSchema) :
    migrate noFail st =
      (.ok (decide (st.userVersion ≤ 2)),
       (migrationStmts st.userVersion).foldl execStmt st) := by
  unfold migrate withTransaction
  rw [migrateBody_eq, execStmts_noFail]
  rfl

/-- One successful DDL statement never removes a schema object. -/
theorem schemaLe_execStmt (st : DBSchema) (x : Stmt) : SchemaLe st (execStmt st x) := by
  have hif : ∀ (l : List String) (n : String), l ⊆ (if n ∈ l then l else l ++ [n]) := by
    intro l n
    split
    · exact List.Subset.refl l
    · exact List.subset_append_left l [n]
  have hif2 : ∀ (l : List (String × String)) (c : String × String),
      l ⊆ (if c ∈ l then l else l ++ [c]) := by
    intro l c
    split
    · exact List.Subset.refl l
    · exact List.subset_append_left l [c]
  cases x with
  | createTable n =>
    exact ⟨hif _ _, List.Subset.refl _, List.Subset.refl _, List.Subset.refl _,
      List.Subset.refl _, List.Subset.refl _⟩
  | createIndex n =>
    exact ⟨List.Subset.refl _, hif _ _, List.Subset.refl _, List.Subset.refl _,
      List.Subset.refl _, List.Subset.refl _⟩
  | createVirtualTable n =>
    exact ⟨List.Subset.refl _, List.Subset.refl _, hif _ _, List.Subset.refl _,
      List.Subset.refl _, List.Subset.refl _⟩
  | createTrigger n =>
    exact ⟨List.Subset.refl _, List.Subset.refl _, List.Subset.refl _, hif _ _,
      List.Subset.refl _, List.Subset.refl _⟩
  | createView n =>
    exact ⟨List.Subset.refl _, List.Subset.refl _, List.Subset.refl _,
      List.Subset.refl _, hif _ _, List.Subset.refl _⟩
  | addColumn t c =>
    exact ⟨List.Subset.refl _, List.Subset.refl _, List.Subset.refl _,
      List.Subset.refl _, List.Subset.refl _, hif2 _ _⟩
  | setUserVersion v =>
    exact ⟨List.Subset.refl _, List.Subset.refl _, List.Subset.refl _,
      List.Subset.refl _, List.Subset.refl _, List.Subset.refl _⟩

/-- Schema growth composes. -/
theorem SchemaLe.trans {a b c : DBSchema} (h₁ : SchemaLe a b) (h₂ : SchemaLe b c) :
    SchemaLe a c :=
  ⟨List.Subset.trans h₁.tables h₂.tables,
   List.Subset.trans h₁.indexes h₂.indexes,
   List.Subset.trans h₁.virtualTables h₂.virtualTables,
   List.Subset.trans h₁.triggers h₂.triggers,
   List.Subset.trans h₁.views h₂.views,
   List.Subset.trans h₁.addedColumns h₂.addedColumns⟩

/-- A whole script of successful DDL statements never removes a schema
object: migration steps are additive. -/
theorem schemaLe_foldl (l : List Stmt) (st : DBSchema) :
    SchemaLe st (l.foldl execStmt st) := by
  induction l generalizing st with
  | nil =>
    exact ⟨List.Subset.refl _, List.Subset.refl _, List.Subset.refl _,
      List.Subset.refl _, List.Subset.refl _, List.Subset.refl _⟩
  | cons x rest ih =>
    simp only [List.foldl_cons]
    exact SchemaLe.trans (schemaLe_execStmt st x) (ih (execStmt st x))

/-- **C4 counterexample.** From stored schema version 4, `Migrate`
succeeds but leaves the stored version at 4, not 3: the claim's
"regardless of the starting version" fails. -/
theorem migrate_version_four_cex :
    (migrate noFail schemaVersionFour).1 = .ok false
    ∧ (migrate noFail schemaVersionFour).2.userVersion = 4 :=
  ⟨rfl, rfl⟩

/-- **C4 (amended).** For every starting version at most 3, a fail-free
`Migrate` applies exactly the pending upgrade scripts in increasing
order inside one transaction, every applied script is additive (no
schema object is removed), and afterwards the stored schema version is
3. (A database whose stored version already exceeds 3 is left at its
stored version.) -/
theorem migrate_in_order (st : DBSchema) (h : st.userVersion ≤ 3) :
    (migrate noFail st).1 = .ok (decide (st.userVersion ≤ 2))
    ∧ (migrate noFail st).2 = (migrationStmts st.userVersion).foldl execStmt st
    ∧ (migrate noFail st).2.userVersion = 3
    ∧ SchemaLe st (migrate noFail st).2 := by
  have heq := migrate_noFail_eq st
  refine ⟨by rw [heq], by rw [heq], ?_, by rw [heq]; exact schemaLe_foldl _ _⟩
  rw [heq]
  generalize hv : st.userVersion = v
  rw [hv] at h
  interval_cases v
  · rfl
  · rfl
  · rfl
  · simpa [migrationStmts] using hv

/-- Witness for the migration-order theorem at a fresh database. -/
theorem migrate_in_order_witness :
    schemaFresh.userVersion ≤ 3 ∧ (migrate noFail schemaFresh).2.userVersion = 3 :=
  ⟨by decide, (migrate_in_order schemaFresh (by decide)).2.2.1⟩

/-- **C5.** A fail-free `Migrate` returns the needs-reindexing flag true
exactly when it applied the content-derivation-changing `version <= 2`
upgrade, and `Container.Database` forwards `forceIndexing ||
needsReindexing` as the indexer's force parameter. -/
theorem migrate_reindex_flag_forwarded {α : Type}
    (noteIndexBody : Bool → StoreState → Except String (α × StoreState))
    (forceIndexing : Bool) (st : DBSchema) (store : StoreState) :
    (migrate noFail st).1 = .ok (decide (st.userVersion ≤ 2))
    ∧ containerDatabase noteIndexBody forceIndexing noFail st store =
        ((containerIndex (noteIndexBody (forceIndexing || decide (st.userVersion ≤ 2))) store).1,
         (migrate noFail st).2,
         (containerIndex (noteIndexBody (forceIndexing || decide (st.userVersion ≤ 2))) store).2) := by
  have heq := migrate_noFail_eq st
  refine ⟨by rw [heq], ?_⟩
  unfold containerDatabase
  rw [heq]

/-- **C6.** If any statement of a pending migration script fails,
`Migrate` returns an error and the migration transaction rolls back:
the database keeps its prior schema and stored version. -/
theorem migrate_rollback (failOn : Stmt → Bool) (st : DBSchema)
    (h : ∃ x ∈ migrationStmts st.userVersion, failOn x = true) :
    (∃ e, (migrate failOn st).1 = .error e) ∧ (migrate failOn st).2 = st := by
  obtain ⟨e, he⟩ := execStmts_fails failOn (migrationStmts st.userVersion) st h
  unfold migrate withTransaction
  rw [migrateBody_eq, he]
  exact ⟨⟨e, rfl⟩, rfl⟩

/-- Witness for the migration-rollback theorem: failing the creation of
the `links` table on a fresh database leaves it untouched at version
0. -/
theorem migrate_rollback_witness :
    (∃ x ∈ migrationStmts schemaFresh.userVersion, failOnLinksTable x = true)
    ∧ (migrate failOnLinksTable schemaFresh).2 = schemaFresh :=
  ⟨by decide, (migrate_rollback failOnLinksTable schemaFresh (by decide)).2⟩

/-- A successful `locate` returns a nonempty ancestor of the start
directory that contains `.zk`, and the deepest such ancestor. -/
theorem locate_ok_spec (fs : AbsPath → Bool) (orig : AbsPath) :
    ∀ p r, locate fs orig p = .ok r →
      r ≠ [] ∧ r <:+ p ∧ fs r = true ∧
      ∀ cs, cs <:+ p → fs cs = true → cs.length ≤ r.length := by
  intro p
  induction p with
  | nil =>
    intro r h
    cases h
  | cons c parent ih =>
    intro r h
    by_cases hc : fs (c :: parent)
    · rw [locate, if_pos hc] at h
      cases h
      refine ⟨List.cons_ne_nil c parent, List.suffix_refl _, hc, ?_⟩
      intro cs hcs _
      exact hcs.length_le
    · rw [locate, if_neg hc] at h
      obtain ⟨hne, hsuf, hfs, hdeep⟩ := ih r h
      refine ⟨hne, hsuf.trans (List.suffix_cons c parent), hfs, ?_⟩
      intro cs hcs hcsfs
      rcases List.suffix_cons_iff.mp hcs with rfl | hcs'
      · exact absurd hcsfs hc
      · exact hdeep cs hcs' hcsfs

/-- A failing `locate` reports `ErrNotebookNotFound` with the original
path, and indeed no nonempty ancestor of the start directory contains
`.zk`. -/
theorem locate_error_spec (fs : AbsPath → Bool) (orig : AbsPath) :
    ∀ p e, locate fs orig p = .error e →
      e = ZkError.notebookNotFound orig ∧
      ∀ cs, cs ≠ [] → cs <:+ p → fs cs = false := by
  intro p
  induction p with
  | nil =>
    intro e h
    cases h
    refine ⟨rfl, ?_⟩
    intro cs hne hcs
    exact absurd (List.suffix_nil.mp hcs) hne
  | cons c parent ih =>
    intro e h
    by_cases hc : fs (c :: parent)
    · rw [locate, if_pos hc] at h
      cases h
    · rw [locate, if_neg hc] at h
      obtain ⟨he, hall⟩ := ih e h
      refine ⟨he, ?_⟩
      intro cs hne hcs
      rcases List.suffix_cons_iff.mp hcs with rfl | hcs'
      · simpa using hc
      · exact hall cs hne hcs'

/-- **C8 counterexample.** With the only `.zk` directory sitting
directly under the filesystem root `/`, the root is an ancestor of
`/a`, yet `Open` fails with the wrapped not-found error: `locateRoot`
stops at `/` without ever testing it. -/
theorem zkOpen_root_cex :
    fsRootOnly [] = true ∧ (([] : AbsPath) <:+ ["a"])
    ∧ zkOpen fsRootOnly ["a"] =
        .error (.wrapped "open failed" (.notebookNotFound ["a"])) :=
  ⟨rfl, ⟨["a"], rfl⟩, rfl⟩

/-- **C8 (amended).** For an absolute path `P`, `Open(P)` succeeds
exactly when some ancestor of `P` strictly below the filesystem root
(possibly `P` itself) contains a `.zk` directory; the returned notebook
root is the deepest such ancestor; otherwise `Open` returns
`ErrNotebookNotFound` naming `P`, wrapped as an "open failed" error. -/
theorem zkOpen_characterization (fs : AbsPath → Bool) (p : AbsPath) :
    ((∃ r, zkOpen fs p = .ok r) ↔ ∃ cs, cs ≠ [] ∧ cs <:+ p ∧ fs cs = true)
    ∧ (∀ r, zkOpen fs p = .ok r →
        r ≠ [] ∧ r <:+ p ∧ fs r = true ∧
        ∀ cs, cs <:+ p → fs cs = true → cs.length ≤ r.length)
    ∧ ((∀ r, zkOpen fs p ≠ .ok r) →
        zkOpen fs p = .error (.wrapped "open failed" (.notebookNotFound p))) := by
  unfold zkOpen locateRoot
  cases h : locate fs p p with
  | ok r =>
    obtain ⟨hne, hsuf, hfs, hdeep⟩ := locate_ok_spec fs p p r h
    refine ⟨⟨fun _ => ⟨r, hne, hsuf, hfs⟩, fun _ => ⟨r, rfl⟩⟩, ?_, ?_⟩
    · intro r' hr'
      cases hr'
      exact ⟨hne, hsuf, hfs, hdeep⟩
    · intro hno
      exact absurd rfl (hno r)
  | error e =>
    obtain ⟨he, hall⟩ := locate_error_spec fs p p e h
    subst he
    refine ⟨⟨?_, ?_⟩, ?_, fun _ => rfl⟩
    · rintro ⟨r, hr⟩
      cases hr
    · rintro ⟨cs, hne, hcs, hfs⟩
      rw [hall cs hne hcs] at hfs
      cases hfs
    · intro r hr
      cases hr

/-- Witness for the Open characterization: a notebook at `/a` is found
from `/a/b` and its root is nonempty. -/
theorem zkOpen_characterization_witness :
    (["a"] : AbsPath) ≠ [] ∧ fsNotebookAtA ["a"] = true :=
  ⟨((zkOpen_characterization fsNotebookAtA ["b", "a"]).2.1 ["a"] (by rfl)).1,
   ((zkOpen_characterization fsNotebookAtA ["b", "a"]).2.1 ["a"] (by rfl)).2.2.1⟩

/-- **C9 counterexample.** With the only `.zk` directory directly under
the filesystem root `/`, an ancestor of `/a` already contains a
notebook, yet `Create("/a")` succeeds and writes both default files:
the existing-notebook check (`locateRoot`) never tests `/`. -/
theorem zkCreate_root_cex :
    fsRootOnly [] = true ∧ (([] : AbsPath) <:+ ["a"])
    ∧ zkCreate fsRootOnly ["a"] =
        .ok [⟨["config.toml", ".zk", "a"], .defaultConfig⟩,
             ⟨["default.md", "templates", ".zk", "a"], .defaultTemplate⟩] :=
  ⟨rfl, ⟨["a"], rfl⟩, rfl⟩

/-- **C9 (amended).** `Create(path)` fails with the wrapped
"a notebook already exists" error, writing nothing, exactly when the
path or one of its ancestors strictly below the filesystem root
contains a `.zk` directory; otherwise it writes the default
`config.toml` and the default note template under `path/.zk` and
succeeds. -/
theorem zkCreate_characterization (fs : AbsPath → Bool) (p : AbsPath) :
    ((∃ cs, cs ≠ [] ∧ cs <:+ p ∧ fs cs = true) →
      ∃ r, r ≠ [] ∧ r <:+ p ∧ fs r = true ∧
        zkCreate fs p = .error (.wrapped "init failed" (.alreadyExists r)))
    ∧ ((∀ cs, cs ≠ [] → cs <:+ p → fs cs = false) →
      zkCreate fs p = .ok [⟨"config.toml" :: ".zk" :: p, .defaultConfig⟩,
                           ⟨"default.md" :: "templates" :: ".zk" :: p, .defaultTemplate⟩]) := by
  unfold zkCreate locateRoot
  cases h : locate fs p p with
  | ok r =>
    obtain ⟨hne, hsuf, hfs, _⟩ := locate_ok_spec fs p p r h
    refine ⟨fun _ => ⟨r, hne, hsuf, hfs, rfl⟩, ?_⟩
    intro hall
    rw [hall r hne hsuf] at hfs
    cases hfs
  | error e =>
    obtain ⟨_, hall⟩ := locate_error_spec fs p p e h
    refine ⟨?_, fun _ => rfl⟩
    rintro ⟨cs, hne, hcs, hfs⟩
    rw [hall cs hne hcs] at hfs
    cases hfs

/-- Witness for the Create characterization: creating `/a/b` while a
notebook exists at `/a` fails with the already-exists error. -/
theorem zkCreate_characterization_witness :
    ∃ r, r ≠ [] ∧ r <:+ (["b", "a"] : AbsPath) ∧ fsNotebookAtA r = true ∧
      zkCreate fsNotebookAtA ["b", "a"] =
        .error (.wrapped "init failed" (.alreadyExists r)) :=
  (zkCreate_characterization fsNotebookAtA ["b", "a"]).1
    ⟨["a"], List.cons_ne_nil "a" [], ⟨["b"], rfl⟩, rfl⟩

/-- Deleting rows preserves the internal store invariant: the surviving
notes are a sublist, and the FTS trigger removes exactly the deleted
rowids from the mirror. -/
theorem inv_deleteWhere (s : StoreState) (cond : NoteRow → Bool)
    (hbound : ∀ r ∈ s.notes, r.id < s.nextNoteId)
    (hidnd : (s.notes.map (·.id)).Nodup)
    (hpathnd : (s.notes.map (·.path)).Nodup)
    (hperm : s.notesFts.Perm (s.notes.map ftsOf)) :
    (∀ r ∈ (deleteWhere s cond).notes, r.id < (deleteWhere s cond).nextNoteId)
    ∧ ((deleteWhere s cond).notes.map (·.id)).Nodup
    ∧ ((deleteWhere s cond).notes.map (·.path)).Nodup
    ∧ (deleteWhere s cond).notesFts.Perm ((deleteWhere s cond).notes.map ftsOf) := by
  simp only [deleteWhere]
  set Din := (s.notes.filter cond).map (·.id) with hDin
  have hA : ∀ r ∈ s.notes, (r.id ∈ Din ↔ cond r = true) := by
    intro r hrm
    rw [hDin]
    constructor
    · intro hid
      obtain ⟨r', hr'm, hr'id⟩ := List.mem_map.mp hid
      obtain ⟨hr'mem, hr'c⟩ := List.mem_filter.mp hr'm
      have heq : r' = r := List.inj_on_of_nodup_map hidnd hr'mem hrm hr'id
      rw [← heq]
      exact hr'c
    · intro hc
      exact List.mem_map.mpr ⟨r, List.mem_filter.mpr ⟨hrm, hc⟩, rfl⟩
  refine ⟨?_, ?_, ?_, ?_⟩
  · intro r hr
    exact hbound r (List.mem_filter.mp hr).1
  · exact List.Nodup.sublist ((List.filter_sublist s.notes).map (·.id)) hidnd
  · exact List.Nodup.sublist ((List.filter_sublist s.notes).map (·.path)) hpathnd
  · have hcongr : s.notes.filter ((fun f => decide (f.rowid ∉ Din)) ∘ ftsOf)
        = s.notes.filter (fun r => !cond r) := by
      apply List.filter_congr
      intro r hrm
      show decide ((ftsOf r).rowid ∉ Din) = !cond r
      by_cases hc : cond r = true
      · have hmem : r.id ∈ Din := (hA r hrm).mpr hc
        simp [ftsOf, hmem, hc]
      · have hmem : r.id ∉ Din := fun hmem => hc ((hA r hrm).mp hmem)
        simp [ftsOf, hmem, hc]
    have h1 := hperm.filter (fun f => decide (f.rowid ∉ Din))
    have h2 : (s.notes.map ftsOf).filter (fun f => decide (f.rowid ∉ Din))
        = (s.notes.filter (fun r => !cond r)).map ftsOf := by
      rw [List.filter_map, hcongr]
    rw [h2] at h1
    exact h1

/-- The internal store invariant maintained by every committed
mutation: note ids stay below the AUTOINCREMENT counter and pairwise
distinct, paths are pairwise distinct, and the FTS mirror is a
permutation of the notes' `(rowid, path, title, body)` projections. -/
theorem storeInv (s : StoreState) (h : Reachable s) :
    (∀ r ∈ s.notes, r.id < s.nextNoteId)
    ∧ (s.notes.map (·.id)).Nodup
    ∧ (s.notes.map (·.path)).Nodup
    ∧ s.notesFts.Perm (s.notes.map ftsOf) := by
  induction h with
  | empty => simp [StoreState.empty]
  | @insert s d s' hr heq ih =>
    obtain ⟨hbound, hidnd, hpathnd, hperm⟩ := ih
    by_cases hany : s.notes.any (fun r => r.path == d.path)
    · rw [insertNote, if_pos hany] at heq
      cases heq
    · rw [insertNote, if_neg hany] at heq
      injection heq with heq
      subst heq
      refine ⟨?_, ?_, ?_, ?_⟩
      · intro r hr'
        simp only [List.mem_append, List.mem_singleton] at hr'
        rcases hr' with hr' | rfl
        · exact Nat.lt_succ_of_lt (hbound r hr')
        · exact Nat.lt_succ_self _
      · rw [List.map_append]
        rw [List.nodup_append]
        refine ⟨hidnd, List.nodup_singleton _, ?_⟩
        intro a ha hb
        simp only [List.map_cons, List.map_nil, List.mem_singleton] at hb
        subst hb
        obtain ⟨r, hrmem, hrid⟩ := List.mem_map.mp ha
        exact absurd hrid (Nat.ne_of_lt (hbound r hrmem))
      · rw [List.map_append]
        rw [List.nodup_append]
        refine ⟨hpathnd, List.nodup_singleton _, ?_⟩
        intro a ha hb
        simp only [List.map_cons, List.map_nil, List.mem_singleton] at hb
        subst hb
        obtain ⟨r, hrmem, hrpath⟩ := List.mem_map.mp ha
        refine absurd ?_ hany
        rw [List.any_eq_true]
        exact ⟨r, hrmem, beq_iff_eq.mpr hrpath⟩
      · rw [List.map_append]
        exact hperm.append_right _
  | @update s p d hr ih =>
    obtain ⟨hbound, hidnd, hpathnd, hperm⟩ := ih
    simp only [updateNote]
    have hgid : ∀ r : NoteRow,
        (if r.path == p then applyUpdate d r else r).id = r.id := by
      intro r
      split <;> rfl
    have hgpath : ∀ r : NoteRow,
        (if r.path == p then applyUpdate d r else r).path = r.path := by
      intro r
      split <;> rfl
    have hA : ∀ r ∈ s.notes,
        (r.id ∈ (s.notes.filter (fun x => x.path == p)).map (·.id)
          ↔ (r.path == p) = true) := by
      intro r hrm
      constructor
      · intro hid
        obtain ⟨r', hr'm, hr'id⟩ := List.mem_map.mp hid
        obtain ⟨hr'mem, hr'p⟩ := List.mem_filter.mp hr'm
        have heq : r' = r := List.inj_on_of_nodup_map hidnd hr'mem hrm hr'id
        rw [← heq]
        exact hr'p
      · intro hp
        exact List.mem_map.mpr ⟨r, List.mem_filter.mpr ⟨hrm, hp⟩, rfl⟩
    refine ⟨?_, ?_, ?_, ?_⟩
    · intro r' hr'
      obtain ⟨r, hrm, heq⟩ := List.mem_map.mp hr'
      rw [← heq, hgid]
      exact hbound r hrm
    · rw [List.map_map]
      have heqf : ((fun r : NoteRow => r.id)
          ∘ fun r => if r.path == p then applyUpdate d r else r) = fun r => r.id :=
        funext hgid
      rw [heqf]
      exact hidnd
    · rw [List.map_map]
      have heqf : ((fun r : NoteRow => r.path)
          ∘ fun r => if r.path == p then applyUpdate d r else r) = fun r => r.path :=
        funext hgpath
      rw [heqf]
      exact hpathnd
    · have hcongr : s.notes.filter
          ((fun f => decide (f.rowid ∉ (s.notes.filter (fun r => r.path == p)).map (fun x => x.id)))
            ∘ ftsOf)
          = s.notes.filter (fun r => !(r.path == p)) := by
        apply List.filter_congr
        intro r hrm
        show decide ((ftsOf r).rowid ∉ (s.notes.filter (fun x => x.path == p)).map (fun x => x.id))
            = !(r.path == p)
        by_cases hp : (r.path == p) = true
        · have hmem : r.id ∈ (s.notes.filter (fun x => x.path == p)).map (fun x => x.id) :=
            (hA r hrm).mpr hp
          simp [ftsOf, hmem, hp]
        · have hmem : r.id ∉ (s.notes.filter (fun x => x.path == p)).map (fun x => x.id) :=
            fun hmem => hp ((hA r hrm).mp hmem)
          simp [ftsOf, hmem, hp]
      have hkept : (s.notesFts.filter
          (fun f => decide
            (f.rowid ∉ (s.notes.filter (fun r => r.path == p)).map (fun x => x.id)))).Perm
          ((s.notes.filter (fun r => !(r.path == p))).map ftsOf) := by
        have h1 := hperm.filter
          (fun f => decide (f.rowid ∉ (s.notes.filter (fun r => r.path == p)).map (fun x => x.id)))
        have h2 : ((s.notes.map ftsOf).filter
            (fun f => decide
              (f.rowid ∉ (s.notes.filter (fun r => r.path == p)).map (fun x => x.id))))
            = (s.notes.filter (fun r => !(r.path == p))).map ftsOf := by
          rw [List.filter_map, hcongr]
        rw [h2] at h1
        exact h1
      have hR : ((s.notes.map (fun r => if r.path == p then applyUpdate d r else r)).map ftsOf).Perm
          ((s.notes.filter (fun r => r.path == p)).map (fun r => ftsOf (applyUpdate d r))
            ++ (s.notes.filter (fun r => !(r.path == p))).map ftsOf) := by
        rw [List.map_map]
        have e1 : (s.notes.filter (fun r => r.path == p)).map
            (ftsOf ∘ fun r => if r.path == p then applyUpdate d r else r)
            = (s.notes.filter (fun r => r.path == p)).map (fun r => ftsOf (applyUpdate d r)) := by
          apply List.map_congr_left
          intro r hrm
          have hp := (List.mem_filter.mp hrm).2
          simp [Function.comp, hp]
        have e2 : (s.notes.filter (fun r => !(r.path == p))).map
            (ftsOf ∘ fun r => if r.path == p then applyUpdate d r else r)
            = (s.notes.filter (fun r => !(r.path == p))).map ftsOf := by
          apply List.map_congr_left
          intro r hrm
          have hp := (List.mem_filter.mp hrm).2
          simp only [Bool.not_eq_true'] at hp
          simp [Function.comp, hp]
        have h5 := ((List.filter_append_perm (fun r => r.path == p) s.notes).symm.map
          (ftsOf ∘ fun r => if r.path == p then applyUpdate d r else r))
        rw [List.map_append, e1, e2] at h5
        exact h5
      exact ((hkept.append_right _).trans List.perm_append_comm).trans hR.symm
  | @deleteById s nid hr ih =>
    obtain ⟨hbound, hidnd, hpathnd, hperm⟩ := ih
    exact inv_deleteWhere s _ hbound hidnd hpathnd hperm
  | @deleteByPath s p hr ih =>
    obtain ⟨hbound, hidnd, hpathnd, hperm⟩ := ih
    exact inv_deleteWhere s _ hbound hidnd hpathnd hperm
  | @link s l hr ih => exact ih

/-- The sample two-note store is reachable through the store's mutation
surface. -/
theorem reachable_sampleStore : Reachable sampleStore := by
  have e1 : insertNote StoreState.empty sampleNew1 = some sampleStage1 := by rfl
  have e2 : insertNote sampleStage1 sampleNew2 = some sampleStage2 := by rfl
  have r2 : Reachable sampleStage2 := Reachable.insert (Reachable.insert Reachable.empty e1) e2
  have r3 : Reachable (insertLink sampleStage2 sampleLink1) := Reachable.link r2
  have r4 : Reachable (insertLink (insertLink sampleStage2 sampleLink1) sampleLink2) :=
    Reachable.link r3
  exact r4

/-- **C2.** In every reachable (i.e. committed) store state, the
full-text mirror `notes_fts` contains exactly one entry per existing
note row, that entry carries the note's current `(path, title, body)`,
and the mirror has no other entries; the mirror is only ever touched by
the triggers firing inside note insert/update/delete, never
independently. -/
theorem notesFts_mirror (s : StoreState) (h : Reachable s) :
    (∀ n ∈ s.notes,
      s.notesFts.countP (fun f => f.rowid == n.id) = 1
      ∧ ∀ f ∈ s.notesFts, f.rowid = n.id →
          f.path = n.path ∧ f.title = n.title ∧ f.body = n.body)
    ∧ (∀ f ∈ s.notesFts, ∃ n ∈ s.notes, n.id = f.rowid) := by
  obtain ⟨hbound, hidnd, hpathnd, hperm⟩ := storeInv s h
  constructor
  · intro n hn
    constructor
    · have hm : n.id ∈ s.notes.map (·.id) := List.mem_map.mpr ⟨n, hn, rfl⟩
      calc s.notesFts.countP (fun f => f.rowid == n.id)
          = (s.notes.map ftsOf).countP (fun f => f.rowid == n.id) := hperm.countP_eq _
        _ = List.count n.id (s.notes.map (·.id)) := by
            rw [List.countP_map, List.count_eq_countP, List.countP_map]
            rfl
        _ = 1 := List.count_eq_one_of_mem hidnd hm
    · intro f hf hfid
      obtain ⟨n', hn', hfn⟩ := List.mem_map.mp (hperm.mem_iff.mp hf)
      have hid : n'.id = n.id := by
        rw [← hfn] at hfid
        exact hfid
      have heqn : n' = n := List.inj_on_of_nodup_map hidnd hn' hn hid
      subst heqn
      rw [← hfn]
      exact ⟨rfl, rfl, rfl⟩
  · intro f hf
    obtain ⟨n', hn', hfn⟩ := List.mem_map.mp (hperm.mem_iff.mp hf)
    refine ⟨n', hn', ?_⟩
    rw [← hfn]
    rfl

/-- Witness for the FTS-mirror theorem: the reachable sample store has
exactly one mirror entry for note 1. -/
theorem notesFts_mirror_witness :
    Reachable sampleStore
    ∧ sampleStore.notesFts.countP (fun f => f.rowid == sampleNote1.id) = 1 :=
  ⟨reachable_sampleStore,
   ((notesFts_mirror sampleStore reachable_sampleStore).1 sampleNote1 (by decide)).1⟩

/-- **C7.** In every reachable store state, a note's path is unique: the
paths of the note rows are pairwise distinct, and inserting a second
row with an already-present path fails with a `UNIQUE(path)` violation
instead of creating a duplicate. -/
theorem path_unique (s : StoreState) (h : Reachable s) :
    (s.notes.map (·.path)).Nodup
    ∧ ∀ d : NewNote, (∃ n ∈ s.notes, n.path = d.path) → insertNote s d = none := by
  refine ⟨(storeInv s h).2.2.1, ?_⟩
  rintro d ⟨n, hn, hp⟩
  have hany : s.notes.any (fun r => r.path == d.path) = true :=
    List.any_eq_true.mpr ⟨n, hn, beq_iff_eq.mpr hp⟩
  rw [insertNote, if_pos hany]

/-- Witness for the path-uniqueness theorem: re-inserting `a.md` into
the reachable sample store fails. -/
theorem path_unique_witness :
    Reachable sampleStore ∧ insertNote sampleStore sampleNew1 = none :=
  ⟨reachable_sampleStore,
   (path_unique sampleStore reachable_sampleStore).2 sampleNew1 ⟨sampleNote1, by decide, rfl⟩⟩

end ZkSpec
